import Mathlib

/-!
Shallow embedding of the PQC Migration Risk Model core
(`config.py`, `core_logic.py`, `scenarios.py`, `simulation.py`).

Arrays (1-D numpy) are modelled as lists.  Elementwise binary
operations on two arrays follow numpy's 1-D broadcasting rule: equal
lengths combine elementwise, a length-1 operand is stretched, any other
mismatch raises (modelled as `none`).  Scalars live in an arbitrary
linear ordered field `K` so that every definition stays computable (and
can be run at `K := ℚ`); the transcendental `np.exp` is passed as an
explicit function argument `E : K → K`, and the theorems below
instantiate `K := ℝ`, `E := Real.exp`.  Randomness is made explicit:
the standard-normal draws consumed by the drivers are supplied as
inputs, and the `mean + sigma * draw` scaling performed by
`np.random.normal(mu, sigma, n)` is written out.
-/

namespace PQC

variable {K : Type} [LinearOrderedField K]

/-! ### config.py -/

def N_SIMULATIONS : ℕ := 1000

def YEARS : ℕ := 15

def A0_LOG : K := 5.0

def MU_G : K := 0.5

def SIGMA_G : K := 0.1

def SIGMA_EPSILON : K := 0.05

def ALPHA : K := 2.0

def COST_RSA_2048 : K := 10.0

def COST_KYBER_512 : K := 18.0

/-- The four-entry CAS weight vector (`config.WEIGHTS`). -/
structure Weights (K : Type) where
  w_AS : K
  w_KM : K
  w_DC : K
  w_CAI : K

def WEIGHTS : Weights K := ⟨0.40, 0.25, 0.20, 0.15⟩

def CAS_THRESHOLD : K := 0.70

/-- The mergeable configuration record (`config.DEFAULT_CONFIG` keys);
`none` means the field was not supplied and the documented default
applies (`dict.get(key, default)` in the source). -/
structure Config (K : Type) where
  n_simulations : Option ℕ := none
  years : Option ℕ := none
  a0_log : Option K := none
  mu_g : Option K := none
  sigma_g : Option K := none
  sigma_epsilon : Option K := none
  alpha : Option K := none
  cost_rsa_2048 : Option K := none
  cost_kyber_512 : Option K := none
  weights : Option (Weights K) := none
  cas_threshold : Option K := none

/-! ### numpy 1-D broadcasting for `+` -/

/-- numpy elementwise addition of two 1-D arrays: equal lengths add
elementwise, a length-1 operand broadcasts, anything else raises
(`none`). -/
def bcastAdd (a b : List K) : Option (List K) :=
  if a.length = b.length then some ((a.zip b).map fun p => p.1 + p.2)
  else if a.length = 1 then some (b.map fun x => a.headD 0 + x)
  else if b.length = 1 then some (a.map fun x => x + b.headD 0)
  else none

/-! ### core_logic.py -/

/-- `core_logic.calculate_adversarial_capability`, generalized over the
initial-capability constant (the source reads `config.A0_LOG`):
`a0 + g*t + epsilon` with numpy broadcasting on the array-array `+`. -/
def capabilityWith (a0 : K) (t : List K) (g : K) (epsilon_series : List K) :
    Option (List K) :=
  bcastAdd (t.map fun x => a0 + g * x) epsilon_series

/-- `core_logic.calculate_adversarial_capability`:
`config.A0_LOG + (g * t) + epsilon_series`. -/
def calculate_adversarial_capability (t : List K) (g : K)
    (epsilon_series : List K) : Option (List K) :=
  capabilityWith A0_LOG t g epsilon_series

/-- Scalar body of `core_logic.calculate_rqr`, generalized over the
logistic sensitivity (the source reads `config.ALPHA`):
`1 / (1 + exp(-alpha * (capability - cost)))`. -/
def rqr1 (E : K → K) (alpha x cost : K) : K :=
  1 / (1 + E (-(alpha * (x - cost))))

/-- `core_logic.calculate_rqr`: `delta = capability_log - cost_log`;
`1.0 / (1.0 + np.exp(-config.ALPHA * delta))` elementwise. -/
def calculate_rqr (E : K → K) (capability_log : List K) (cost_log : K) :
    List K :=
  capability_log.map fun x => rqr1 E ALPHA x cost_log

/-- `core_logic.calculate_cas`, generalized over the weight vector (the
source reads `config.WEIGHTS`).  Follows the source's evaluation order:
`((w_AS*m_as + w_KM*0.85) + w_DC*coverage) + w_CAI*0.75`, where the
middle `+` is array-array and so broadcasts. -/
def casWith (W : Weights K) (rqr coverage_pct : List K) : Option (List K) :=
  (bcastAdd (rqr.map fun x => W.w_AS * max 0 (1 - x) + W.w_KM * 0.85)
      (coverage_pct.map fun c => W.w_DC * c)).map
    (List.map fun y => y + W.w_CAI * 0.75)

/-- `core_logic.calculate_cas` with the module weight constants. -/
def calculate_cas (rqr coverage_pct : List K) : Option (List K) :=
  casWith WEIGHTS rqr coverage_pct

/-- Equal-length elementwise form of `calculate_cas` (what the source
computes when the two trajectories have the same length). -/
def casCore (W : Weights K) (rqr coverage_pct : List K) : List K :=
  (rqr.zip coverage_pct).map fun p =>
    W.w_AS * max 0 (1 - p.1) + W.w_KM * 0.85 + W.w_DC * p.2 + W.w_CAI * 0.75

/-! ### scenarios.py -/

/-- Elementwise Aggressive coverage (Eq. 15):
`0.98 / (1 + exp(-0.8 * (t - 4)))`. -/
def aggressiveL (E : K → K) (x : K) : K :=
  0.98 / (1 + E (-(0.8 * (x - 4))))

/-- Elementwise Conservative coverage (Eq. 16): `min(1, 0.18*t)`. -/
def conservativeL (x : K) : K :=
  min 1 (0.18 * x)

/-- Elementwise Late_Start coverage (Eq. 17): the source zero-fills and
then assigns `min(1, 0.18*(t - 3))` on the mask `t >= 3`. -/
def lateStartL (x : K) : K :=
  if 3 ≤ x then min 1 (0.18 * (x - 3)) else 0

/-- `scenarios.get_migration_coverage`: dispatch on the scenario name;
an unrecognized name leaves the zero-initialized array untouched. -/
def get_migration_coverage (E : K → K) (scenario_name : String)
    (t_array : List K) : List K :=
  if scenario_name = "Aggressive" then t_array.map (aggressiveL E)
  else if scenario_name = "Conservative" then t_array.map conservativeL
  else if scenario_name = "Late_Start" then t_array.map lateStartL
  else List.replicate t_array.length 0

/-! ### simulation.py -/

/-- `np.arange(1, years + 1)` as scalars of `K`. -/
def timeAxis (years : ℕ) : List K :=
  (List.range years).map fun k => ((k + 1 : ℕ) : K)

/-- `simulation.run_monte_carlo`, with the sampled growth rates and
noise rows supplied explicitly (`g i` is the i-th draw of
`np.random.normal(MU_G, SIGMA_G, N_SIMULATIONS)`, `eps i` the i-th
iteration's noise row).  Returns `(t_array, rqr_rsa_all,
rqr_kyber_all)`; within each iteration both ensembles use the same
capability trajectory. -/
def run_monte_carlo (E : K → K) (g : ℕ → K) (eps : ℕ → List K) :
    List K × List (List K) × List (List K) :=
  let t : List K := timeAxis YEARS
  ( t,
    (List.range N_SIMULATIONS).map fun i =>
      calculate_rqr E
        ((calculate_adversarial_capability t (g i) (eps i)).getD [])
        COST_RSA_2048,
    (List.range N_SIMULATIONS).map fun i =>
      calculate_rqr E
        ((calculate_adversarial_capability t (g i) (eps i)).getD [])
        COST_KYBER_512 )

/-- Python value stored in a scenario-result dict entry: a numpy array
or a scalar. -/
inductive PyVal (K : Type) where
  | arr (xs : List K)
  | num (x : K)

/-- `simulation.calculate_tci_scenarios`: for each of the three named
scenarios, compute `L(t)`, `cas_series = calculate_cas(rqr_kyber_mean,
coverage)` and `tci = np.mean(cas_series)`, and store
`{"cas_series": ..., "tci": ...}` under the scenario name. -/
def calculate_tci_scenarios (E : K → K) (t_array rqr_kyber_mean : List K) :
    List (String × List (String × PyVal K)) :=
  (["Aggressive", "Conservative", "Late_Start"]).map fun sc =>
    let coverage := get_migration_coverage E sc t_array
    let cas_series := (calculate_cas rqr_kyber_mean coverage).getD []
    let tci_score := cas_series.sum / (cas_series.length : K)
    (sc, [("cas_series", PyVal.arr cas_series), ("tci", PyVal.num tci_score)])

/-- Return record of `simulation.run_simulation`. -/
structure SimResult (K : Type) where
  tci : K
  cas_mean : K
  cas_series : List K

/-- Fully parameterized body shared by `run_simulation` (which feeds the
module constants for `a0`, `alpha` and the weights) and by its
spec-described variant.  `z i` is the i-th standard-normal draw behind
`np.random.normal(mu_g, sigma_g, n_sims)` (so the growth rate is
`mu_g + sigma_g * z i`) and `w i k` the (i,k)-th standard-normal draw
behind `np.random.normal(0, sigma_epsilon, years)`. -/
def runSimCore (E : K → K) (n_sims years : ℕ)
    (a0 mu_g sigma_g sigma_epsilon alpha cost_kyber : K) (W : Weights K)
    (z : ℕ → K) (w : ℕ → ℕ → K) : SimResult K :=
  let t : List K := timeAxis years
  let rows := (List.range n_sims).map fun i =>
    let epsilon := (List.range years).map fun k => sigma_epsilon * w i k
    ((capabilityWith a0 t (mu_g + sigma_g * z i) epsilon).getD []).map
      fun x => rqr1 E alpha x cost_kyber
  let rqr_kyber_mean := (List.range years).map fun k =>
    (rows.map fun row => row.getD k 0).sum / (n_sims : K)
  let coverage := List.replicate years (1 : K)
  let cas_series := (casWith W rqr_kyber_mean coverage).getD []
  let tci := cas_series.sum / (cas_series.length : K)
  ⟨tci, tci, cas_series⟩

/-- `simulation.run_simulation`: reads `n_simulations`, `years`,
`mu_g`, `sigma_g`, `sigma_epsilon`, `cost_kyber_512` from the supplied
configuration (falling back to the module defaults), while the called
core functions read `config.A0_LOG`, `config.ALPHA` and
`config.WEIGHTS` directly. -/
def run_simulation (E : K → K) (config_dict : Config K)
    (n_iterations : Option ℕ) (z : ℕ → K) (w : ℕ → ℕ → K) : SimResult K :=
  runSimCore E
    (n_iterations.getD (config_dict.n_simulations.getD N_SIMULATIONS))
    (config_dict.years.getD YEARS)
    A0_LOG
    (config_dict.mu_g.getD MU_G)
    (config_dict.sigma_g.getD SIGMA_G)
    (config_dict.sigma_epsilon.getD SIGMA_EPSILON)
    ALPHA
    (config_dict.cost_kyber_512.getD COST_KYBER_512)
    WEIGHTS z w

/-- Modelled from the spec: the overridable-parameter entry point as
§4.5/§6 describe it — every recognized field of the configuration
record that is set (including `alpha`, `a0_log` and `weights`) is used
in place of its default, and unset fields take the documented
defaults. -/
def run_simulation_spec (E : K → K) (config_dict : Config K)
    (n_iterations : Option ℕ) (z : ℕ → K) (w : ℕ → ℕ → K) : SimResult K :=
  runSimCore E
    (n_iterations.getD (config_dict.n_simulations.getD N_SIMULATIONS))
    (config_dict.years.getD YEARS)
    (config_dict.a0_log.getD A0_LOG)
    (config_dict.mu_g.getD MU_G)
    (config_dict.sigma_g.getD SIGMA_G)
    (config_dict.sigma_epsilon.getD SIGMA_EPSILON)
    (config_dict.alpha.getD ALPHA)
    (config_dict.cost_kyber_512.getD COST_KYBER_512)
    (config_dict.weights.getD WEIGHTS) z w

/-! ### Basic lemmas -/

theorem bcastAdd_of_length_eq {a b : List K} (h : a.length = b.length) :
    bcastAdd a b = some ((a.zip b).map fun p => p.1 + p.2) := by
  simp [bcastAdd, h]

theorem casWith_of_length_eq {W : Weights K} {r c : List K}
    (h : r.length = c.length) : casWith W r c = some (casCore W r c) := by
  have hlen : (r.map fun x => W.w_AS * max 0 (1 - x) + W.w_KM * 0.85).length
      = (c.map fun cv => W.w_DC * cv).length := by simpa using h
  rw [casWith, bcastAdd_of_length_eq hlen]
  simp only [Option.map_some', List.zip_map, List.map_map]
  rfl

theorem get_migration_coverage_length (E : K → K) (name : String)
    (t : List K) : (get_migration_coverage E name t).length = t.length := by
  unfold get_migration_coverage
  split_ifs <;> simp

theorem WEIGHTS_w_AS : (WEIGHTS : Weights K).w_AS = 0.40 := rfl

theorem WEIGHTS_w_KM : (WEIGHTS : Weights K).w_KM = 0.25 := rfl

theorem WEIGHTS_w_DC : (WEIGHTS : Weights K).w_DC = 0.20 := rfl

theorem WEIGHTS_w_CAI : (WEIGHTS : Weights K).w_CAI = 0.15 := rfl

theorem rqr1_exp_pos (alpha x cost : ℝ) : 0 < rqr1 Real.exp alpha x cost := by
  unfold rqr1
  positivity

theorem rqr1_exp_lt_one (alpha x cost : ℝ) : rqr1 Real.exp alpha x cost < 1 := by
  unfold rqr1
  rw [div_lt_one (by positivity)]
  linarith [Real.exp_pos (-(alpha * (x - cost)))]

theorem rqr1_exp_mono_cap {alpha : ℝ} (ha : 0 ≤ alpha) {x y : ℝ} (cost : ℝ)
    (hxy : x ≤ y) : rqr1 Real.exp alpha x cost ≤ rqr1 Real.exp alpha y cost := by
  unfold rqr1
  apply one_div_le_one_div_of_le (by positivity)
  have harg : -(alpha * (y - cost)) ≤ -(alpha * (x - cost)) := by
    nlinarith [mul_le_mul_of_nonneg_left (sub_le_sub_right hxy cost) ha]
  linarith [Real.exp_le_exp.mpr harg]

theorem rqr1_exp_anti_cost {alpha : ℝ} (ha : 0 ≤ alpha) (x : ℝ) {c1 c2 : ℝ}
    (hc : c1 ≤ c2) : rqr1 Real.exp alpha x c2 ≤ rqr1 Real.exp alpha x c1 := by
  unfold rqr1
  apply one_div_le_one_div_of_le (by positivity)
  have harg : -(alpha * (x - c1)) ≤ -(alpha * (x - c2)) := by
    nlinarith [mul_le_mul_of_nonneg_left (sub_le_sub_left hc x) ha]
  linarith [Real.exp_le_exp.mpr harg]

/-! ### Claims -/

/-- Claim C1: the Risk Transform's output is strictly inside (0,1); the
theorem evaluates the embedded code at the spec's "extreme input"
(capability −1000, cost 10, so the exponent argument is 2020): in exact
real arithmetic the value is strictly interior.  (The Python source
evaluates the logistic naively, so at this input `np.exp(2020)`
overflows float64 — see the claim record.) -/
theorem claim_C1_exact_interior :
    calculate_rqr Real.exp [(-1000 : ℝ)] 10 = [1 / (1 + Real.exp 2020)] ∧
      0 < 1 / (1 + Real.exp 2020) ∧ 1 / (1 + Real.exp 2020) < 1 := by
  refine ⟨?_, by positivity, ?_⟩
  · unfold calculate_rqr rqr1 ALPHA
    norm_num
  · rw [div_lt_one (by positivity)]
    linarith [Real.exp_pos (2020 : ℝ)]

/-- Numeric calibration of the logistic at delta = 1, alpha = 2:
`1/(1 + exp(-2))` lies in (0.8807, 0.8809). -/
theorem rqr1_calibration_bounds :
    0.8807 < rqr1 Real.exp 2 11 10 ∧ rqr1 Real.exp 2 11 10 < 0.8809 := by
  have he2 : Real.exp (2 : ℝ) = Real.exp 1 * Real.exp 1 := by
    rw [← Real.exp_add]; norm_num
  have h1l : (2.7182818283 : ℝ) < Real.exp 1 := Real.exp_one_gt_d9
  have h1u : Real.exp 1 < 2.7182818286 := Real.exp_one_lt_d9
  have hl : (7.389056 : ℝ) < Real.exp 2 := by rw [he2]; nlinarith
  have hu : Real.exp 2 < (7.389057 : ℝ) := by rw [he2]; nlinarith
  have hpos : (0 : ℝ) < Real.exp 2 := Real.exp_pos 2
  have hneg : Real.exp (-(2 : ℝ)) = 1 / Real.exp 2 := by
    rw [Real.exp_neg, inv_eq_one_div]
  have hxu : Real.exp (-(2 : ℝ)) < 0.13534 := by
    rw [hneg, div_lt_iff₀ hpos]; nlinarith
  have hxl : (0.13533 : ℝ) < Real.exp (-(2 : ℝ)) := by
    rw [hneg, lt_div_iff₀ hpos]; nlinarith
  have harg : -((2 : ℝ) * (11 - 10)) = -2 := by norm_num
  constructor
  · rw [rqr1, harg, lt_div_iff₀ (by positivity)]
    nlinarith
  · rw [rqr1, harg, div_lt_iff₀ (by positivity)]
    nlinarith

/-- Claim C4: `calculate_rqr` computes `1/(1 + exp(-ALPHA*(capability -
cost)))` elementwise with the configured `ALPHA = 2.0`; it equals
exactly 0.5 when capability equals cost, and at `alpha = 2.0,
capability = 11.0, cost = 10.0` the value is approximately 0.8808
(strictly between 0.8807 and 0.8809). -/
theorem claim_C4_formula_and_calibration :
    (∀ (E : ℝ → ℝ) (cap : List ℝ) (cost : ℝ),
        calculate_rqr E cap cost
          = cap.map fun x => 1 / (1 + E (-(ALPHA * (x - cost))))) ∧
    (ALPHA : ℝ) = 2.0 ∧
    (∀ x : ℝ, rqr1 Real.exp ALPHA x x = 0.5) ∧
    calculate_rqr Real.exp [(11 : ℝ)] 10 = [rqr1 Real.exp ALPHA 11 10] ∧
    0.8807 < rqr1 Real.exp (ALPHA : ℝ) 11 10 ∧
    rqr1 Real.exp (ALPHA : ℝ) 11 10 < 0.8809 := by
  have hA : (ALPHA : ℝ) = 2 := by norm_num [ALPHA]
  refine ⟨fun E cap cost => rfl, by norm_num [ALPHA], fun x => ?_, rfl, ?_, ?_⟩
  · simp only [rqr1, sub_self, mul_zero, neg_zero, Real.exp_zero]
    norm_num
  · rw [hA]; exact rqr1_calibration_bounds.1
  · rw [hA]; exact rqr1_calibration_bounds.2

/-- Claim C7: for fixed cost, `calculate_rqr` is monotonically
non-decreasing in the capability trajectory (pointwise); for fixed
capability it is non-increasing in the cost; and every output lies in
[0,1]. -/
theorem claim_C7_monotone_bounded (cost c1 c2 : ℝ) (cap cap1 cap2 : List ℝ)
    (hcap : List.Forall₂ (· ≤ ·) cap1 cap2) (hc : c1 ≤ c2) :
    List.Forall₂ (· ≤ ·) (calculate_rqr Real.exp cap1 cost)
        (calculate_rqr Real.exp cap2 cost) ∧
    List.Forall₂ (· ≤ ·) (calculate_rqr Real.exp cap c2)
        (calculate_rqr Real.exp cap c1) ∧
    ∀ y ∈ calculate_rqr Real.exp cap cost, 0 ≤ y ∧ y ≤ 1 := by
  have hA : (0 : ℝ) ≤ ALPHA := by norm_num [ALPHA]
  refine ⟨?_, ?_, ?_⟩
  · rw [calculate_rqr, calculate_rqr, List.forall₂_map_right_iff,
      List.forall₂_map_left_iff]
    exact hcap.imp fun a b hab => rqr1_exp_mono_cap hA cost hab
  · rw [calculate_rqr, calculate_rqr, List.forall₂_map_right_iff,
      List.forall₂_map_left_iff, List.forall₂_same]
    exact fun x _ => rqr1_exp_anti_cost hA x hc
  · intro y hy
    obtain ⟨x, -, rfl⟩ := List.mem_map.mp hy
    exact ⟨(rqr1_exp_pos ALPHA x cost).le, (rqr1_exp_lt_one ALPHA x cost).le⟩

/-- Witness for C7 at concrete inputs. -/
theorem claim_C7_witness :
    (List.Forall₂ (· ≤ ·) [(1 : ℝ)] [2] ∧ (10 : ℝ) ≤ 18) ∧
    (List.Forall₂ (· ≤ ·) (calculate_rqr Real.exp [(1 : ℝ)] 10)
        (calculate_rqr Real.exp [2] 10) ∧
      List.Forall₂ (· ≤ ·) (calculate_rqr Real.exp [(11 : ℝ)] 18)
        (calculate_rqr Real.exp [11] 10) ∧
      ∀ y ∈ calculate_rqr Real.exp [(11 : ℝ)] 10, 0 ≤ y ∧ y ≤ 1) :=
  ⟨⟨.cons (by norm_num) .nil, by norm_num⟩,
    claim_C7_monotone_bounded 10 10 18 [11] [1] [2]
      (.cons (by norm_num) .nil) (by norm_num)⟩

/-- Claim C5 is false as stated: with default weights, RQR = 0 and
coverage = 1 give CAS = 0.925 (= 0.4·1 + 0.25·0.85 + 0.2·1 +
0.15·0.75), not 0.9125 as claimed. -/
theorem claim_C5_counterexample :
    calculate_cas [(0 : ℝ)] [1] = some [0.925] ∧
    (0.925 : ℝ) ≠ 0.9125 ∧
    calculate_cas [(0 : ℝ)] [1] ≠ some [(0.9125 : ℝ)] := by
  have h : calculate_cas [(0 : ℝ)] [1] = some [0.925] := by
    rw [calculate_cas,
      casWith_of_length_eq (show ([(0 : ℝ)]).length = [(1 : ℝ)].length from rfl)]
    norm_num [casCore, WEIGHTS_w_AS, WEIGHTS_w_KM, WEIGHTS_w_DC, WEIGHTS_w_CAI]
  refine ⟨h, by norm_num, ?_⟩
  rw [h]
  intro hc
  simp only [Option.some.injEq, List.cons.injEq, and_true] at hc
  norm_num at hc

/-- Claim C5 (amended: the CAS value at RQR = 0, coverage = 1 is 0.925,
not 0.9125): `calculate_cas` computes `w_AS*max(0,1-RQR) + w_KM*0.85 +
w_DC*coverage + w_CAI*0.75` elementwise; the weights sum to 1; if each
metric lies in [0,1] then every CAS value lies in [0,1]; and RQR = 1,
coverage = 0 give CAS = 0.325. -/
theorem claim_C5_amended (rqr coverage : List ℝ)
    (h : rqr.length = coverage.length)
    (hAS : ∀ x ∈ rqr, max 0 (1 - x) ∈ Set.Icc (0 : ℝ) 1)
    (hDC : ∀ c ∈ coverage, c ∈ Set.Icc (0 : ℝ) 1) :
    calculate_cas rqr coverage = some (casCore WEIGHTS rqr coverage) ∧
    (WEIGHTS : Weights ℝ).w_AS + (WEIGHTS : Weights ℝ).w_KM
        + (WEIGHTS : Weights ℝ).w_DC + (WEIGHTS : Weights ℝ).w_CAI = 1 ∧
    (∀ y ∈ (calculate_cas rqr coverage).getD [], y ∈ Set.Icc (0 : ℝ) 1) ∧
    calculate_cas [(0 : ℝ)] [1] = some [0.925] ∧
    calculate_cas [(1 : ℝ)] [0] = some [0.325] := by
  refine ⟨casWith_of_length_eq h,
    by norm_num [WEIGHTS_w_AS, WEIGHTS_w_KM, WEIGHTS_w_DC, WEIGHTS_w_CAI],
    ?_, ?_, ?_⟩
  · intro y hy
    rw [calculate_cas, casWith_of_length_eq h] at hy
    simp only [Option.getD_some, casCore, List.mem_map] at hy
    obtain ⟨p, hp, rfl⟩ := hy
    have hmem := List.of_mem_zip hp
    have h1 := hAS p.1 hmem.1
    have h2 := hDC p.2 hmem.2
    rw [Set.mem_Icc] at h1 h2 ⊢
    rw [WEIGHTS_w_AS, WEIGHTS_w_KM, WEIGHTS_w_DC, WEIGHTS_w_CAI]
    constructor <;> nlinarith [h1.1, h1.2, h2.1, h2.2]
  · rw [calculate_cas,
      casWith_of_length_eq (show ([(0 : ℝ)]).length = [(1 : ℝ)].length from rfl)]
    norm_num [casCore, WEIGHTS_w_AS, WEIGHTS_w_KM, WEIGHTS_w_DC, WEIGHTS_w_CAI]
  · rw [calculate_cas,
      casWith_of_length_eq (show ([(1 : ℝ)]).length = [(0 : ℝ)].length from rfl)]
    norm_num [casCore, WEIGHTS_w_AS, WEIGHTS_w_KM, WEIGHTS_w_DC, WEIGHTS_w_CAI]

/-- Witness for the amended C5 at concrete inputs. -/
theorem claim_C5_witness :
    calculate_cas [(0.5 : ℝ)] [0.25] = some (casCore WEIGHTS [(0.5 : ℝ)] [0.25]) ∧
    (∀ y ∈ (calculate_cas [(0.5 : ℝ)] [0.25]).getD [], y ∈ Set.Icc (0 : ℝ) 1) :=
  have h := claim_C5_amended [(0.5 : ℝ)] [0.25] rfl
    (by intro x hx; simp only [List.mem_singleton] at hx; subst hx
        rw [Set.mem_Icc]; constructor <;> norm_num)
    (by intro c hc; simp only [List.mem_singleton] at hc; subst hc
        rw [Set.mem_Icc]; constructor <;> norm_num)
  ⟨h.1, h.2.2.1⟩

/-- Claim C6: the Late_Start coverage model returns 0 at every time
strictly below `t_delay = 3`, and `min(1, 0.18*(t - 3))` — the
Conservative value at `t - 3` — at every time greater than or equal to
3. -/
theorem claim_C6_late_start :
    (∀ (E : ℝ → ℝ) (t : List ℝ),
        get_migration_coverage E "Late_Start" t = t.map lateStartL) ∧
    (∀ x : ℝ, x < 3 → lateStartL x = 0) ∧
    (∀ x : ℝ, 3 ≤ x →
        lateStartL x = min 1 (0.18 * (x - 3)) ∧
        lateStartL x = conservativeL (x - 3)) := by
  refine ⟨fun E t => by simp [get_migration_coverage], fun x hx => ?_,
    fun x hx => ⟨?_, ?_⟩⟩
  · rw [lateStartL, if_neg (not_le.mpr hx)]
  · rw [lateStartL, if_pos hx]
  · rw [lateStartL, if_pos hx, conservativeL]

/-- Witness for C6 at concrete times 2 and 5. -/
theorem claim_C6_witness :
    ((2 : ℝ) < 3 ∧ lateStartL (2 : ℝ) = 0) ∧
    ((3 : ℝ) ≤ 5 ∧ lateStartL (5 : ℝ) = conservativeL (5 - 3)) :=
  ⟨⟨by norm_num, claim_C6_late_start.2.1 2 (by norm_num)⟩,
    ⟨by norm_num, (claim_C6_late_start.2.2 5 (by norm_num)).2⟩⟩

/-- Claim C8: for every scenario name outside {Aggressive, Conservative,
Late_Start}, `get_migration_coverage` returns the untouched all-zero
trajectory of the time axis's length (and, being a total function,
raises no error). -/
theorem claim_C8_unknown_scenario (E : ℝ → ℝ) (name : String) (t : List ℝ)
    (h : name ∉ ["Aggressive", "Conservative", "Late_Start"]) :
    get_migration_coverage E name t = List.replicate t.length 0 := by
  simp only [List.mem_cons, List.not_mem_nil, or_false, not_or] at h
  rw [get_migration_coverage, if_neg h.1, if_neg h.2.1, if_neg h.2.2]

/-- Witness for C8 at a concrete unrecognized name. -/
theorem claim_C8_witness :
    "Unknown" ∉ ["Aggressive", "Conservative", "Late_Start"] ∧
    get_migration_coverage Real.exp "Unknown" [(1 : ℝ), 2, 3]
      = List.replicate 3 0 :=
  ⟨by decide, claim_C8_unknown_scenario Real.exp "Unknown" [1, 2, 3] (by decide)⟩

theorem getD_range_map {β : Type} (n : ℕ) (f : ℕ → β) (d : β) (i : ℕ) :
    ((List.range n).map f).getD i d = if i < n then f i else d := by
  rw [List.getD_eq_getElem?_getD, List.getElem?_map]
  by_cases hi : i < n
  · rw [List.getElem?_range hi]
    simp [hi]
  · rw [List.getElem?_eq_none (by simpa using not_lt.mp hi)]
    simp [hi]

theorem calculate_rqr_getD_anti (cap : List ℝ) (tk : ℕ) {c1 c2 : ℝ}
    (hc : c1 ≤ c2) :
    (calculate_rqr Real.exp cap c2).getD tk 0
      ≤ (calculate_rqr Real.exp cap c1).getD tk 0 := by
  rw [calculate_rqr, calculate_rqr, List.getD_eq_getElem?_getD,
    List.getD_eq_getElem?_getD, List.getElem?_map, List.getElem?_map]
  cases h : cap[tk]? with
  | none => simp [h]
  | some x => simpa [h] using rqr1_exp_anti_cost (by norm_num [ALPHA]) x hc

/-- Claim C10: in every run of the Monte Carlo driver, at every
iteration/year position the RSA-2048 risk entry dominates the Kyber-512
entry, because both are computed from the same capability trajectory
and `COST_RSA_2048 = 10.0 < 18.0 = COST_KYBER_512`.  (Out-of-range
positions read the `getD` default on both sides.) -/
theorem claim_C10_rsa_dominates_kyber :
    (COST_RSA_2048 : ℝ) < COST_KYBER_512 ∧
    ∀ (g : ℕ → ℝ) (eps : ℕ → List ℝ) (i tk : ℕ),
      ((run_monte_carlo Real.exp g eps).2.2.getD i []).getD tk 0
        ≤ ((run_monte_carlo Real.exp g eps).2.1.getD i []).getD tk 0 := by
  refine ⟨by norm_num [COST_RSA_2048, COST_KYBER_512], fun g eps i tk => ?_⟩
  simp only [run_monte_carlo]
  rw [getD_range_map, getD_range_map]
  by_cases hi : i < N_SIMULATIONS
  · rw [if_pos hi, if_pos hi]
    exact calculate_rqr_getD_anti _ tk
      (by norm_num [COST_RSA_2048, COST_KYBER_512])
  · rw [if_neg hi, if_neg hi]

/-- Claim C9 as stated: the Capability Model computes
`A0_LOG + g*t + eps` elementwise and fails if and only if the noise
length differs from the time-axis length. -/
def claimC9 : Prop :=
  ∀ (t : List ℝ) (g : ℝ) (eps : List ℝ),
    (eps.length = t.length →
      calculate_adversarial_capability t g eps
        = some ((t.zip eps).map fun p => A0_LOG + g * p.1 + p.2)) ∧
    (calculate_adversarial_capability t g eps = none ↔
      eps.length ≠ t.length)

/-- Claim C9 is false as stated: with `t = [1, 2]` and the length-1
noise sequence `[0]`, the lengths differ yet the computation does not
fail — numpy broadcasts the length-1 operand. -/
theorem claim_C9_counterexample : ¬ claimC9 := by
  intro h
  have h2 := (h [1, 2] 0 [0]).2
  simp [calculate_adversarial_capability, capabilityWith, bcastAdd] at h2

theorem map_zip_replicate_zero (t : List K) (f : K → K) :
    ((t.zip (List.replicate t.length 0)).map fun p => f p.1 + p.2)
      = t.map f := by
  induction t with
  | nil => rfl
  | cons x xs ih => simp [List.replicate_succ, ih]

/-- Claim C9 (amended: the failure condition also requires that neither
operand has length 1, since numpy broadcasts a length-1 array):
`calculate_adversarial_capability` computes `A0_LOG + g*t + eps(t)`
elementwise for equal lengths, is exactly linear in `t` under zero
noise, and fails precisely when the lengths differ and neither is 1. -/
theorem claim_C9_amended (t : List ℝ) (g : ℝ) (eps : List ℝ) :
    (eps.length = t.length →
      calculate_adversarial_capability t g eps
        = some ((t.zip eps).map fun p => A0_LOG + g * p.1 + p.2)) ∧
    calculate_adversarial_capability t g (List.replicate t.length 0)
      = some (t.map fun x => A0_LOG + g * x) ∧
    (calculate_adversarial_capability t g eps = none ↔
      eps.length ≠ t.length ∧ t.length ≠ 1 ∧ eps.length ≠ 1) := by
  have hform : ∀ eps' : List ℝ, eps'.length = t.length →
      calculate_adversarial_capability t g eps'
        = some ((t.zip eps').map fun p => A0_LOG + g * p.1 + p.2) := by
    intro eps' hlen
    rw [calculate_adversarial_capability, capabilityWith,
      bcastAdd_of_length_eq (by simpa using hlen.symm), List.zip_map_left,
      List.map_map]
    rfl
  refine ⟨hform eps, ?_, ?_⟩
  · rw [hform (List.replicate t.length 0) (List.length_replicate _ _)]
    exact congrArg some (map_zip_replicate_zero t fun x => A0_LOG + g * x)
  · rw [calculate_adversarial_capability, capabilityWith, bcastAdd]
    simp only [List.length_map]
    split_ifs with h1 h2 h3 <;> simp_all
    omega

/-- Witness for the amended C9 at concrete inputs. -/
theorem claim_C9_witness :
    ([(3 : ℝ), 4].length = [(1 : ℝ), 2].length) ∧
    calculate_adversarial_capability [(1 : ℝ), 2] 5 [3, 4]
      = some ((([(1 : ℝ), 2]).zip [3, 4]).map fun p => A0_LOG + 5 * p.1 + p.2) :=
  ⟨rfl, (claim_C9_amended [1, 2] 5 [3, 4]).1 rfl⟩

/-- Claim C3 as stated: the Scenario Evaluator maps each of the three
scenario names to a result containing that scenario's coverage
trajectory, its CAS series (computed against the same given mean-risk
trajectory), and its TCI equal to the time-mean of that CAS series. -/
def claimC3 : Prop :=
  ∀ (t r : List ℝ), r.length = t.length →
    ∀ sc ∈ ["Aggressive", "Conservative", "Late_Start"],
      ((calculate_tci_scenarios Real.exp t r).lookup sc).bind
          (fun entry => entry.lookup "coverage")
        = some (PyVal.arr (get_migration_coverage Real.exp sc t)) ∧
      ((calculate_tci_scenarios Real.exp t r).lookup sc).bind
          (fun entry => entry.lookup "cas_series")
        = some (PyVal.arr (casCore WEIGHTS r (get_migration_coverage Real.exp sc t))) ∧
      ((calculate_tci_scenarios Real.exp t r).lookup sc).bind
          (fun entry => entry.lookup "tci")
        = some (PyVal.num ((casCore WEIGHTS r (get_migration_coverage Real.exp sc t)).sum
            / ((casCore WEIGHTS r (get_migration_coverage Real.exp sc t)).length : ℝ)))

/-- Claim C3 is false as stated: a scenario's result dict holds only
the keys "cas_series" and "tci" — it does not contain the coverage
trajectory. -/
theorem claim_C3_counterexample : ¬ claimC3 := by
  intro h
  have h1 := (h [1] [0] rfl "Aggressive" (by simp)).1
  simp [calculate_tci_scenarios, List.lookup] at h1

/-- Claim C3 (amended: the per-scenario result contains the CAS series
and the TCI, but not the coverage trajectory): the Scenario Evaluator
returns a mapping whose keys are exactly the three scenario names, and
maps each name to `{"cas_series": CAS, "tci": mean(CAS)}` where CAS is
computed from the shared mean-risk trajectory and that scenario's
coverage. -/
theorem claim_C3_amended (t r : List ℝ) (h : r.length = t.length) :
    (calculate_tci_scenarios Real.exp t r).map Prod.fst
        = ["Aggressive", "Conservative", "Late_Start"] ∧
    ∀ sc ∈ ["Aggressive", "Conservative", "Late_Start"],
      (calculate_tci_scenarios Real.exp t r).lookup sc
        = some [("cas_series",
              PyVal.arr (casCore WEIGHTS r (get_migration_coverage Real.exp sc t))),
            ("tci",
              PyVal.num ((casCore WEIGHTS r (get_migration_coverage Real.exp sc t)).sum
                / ((casCore WEIGHTS r (get_migration_coverage Real.exp sc t)).length : ℝ)))] := by
  have hc : ∀ sc : String,
      calculate_cas r (get_migration_coverage Real.exp sc t)
        = some (casCore WEIGHTS r (get_migration_coverage Real.exp sc t)) := by
    intro sc
    exact casWith_of_length_eq (by rw [get_migration_coverage_length]; exact h)
  constructor
  · simp [calculate_tci_scenarios]
  · intro sc hsc
    simp only [List.mem_cons, List.not_mem_nil, or_false] at hsc
    rcases hsc with rfl | rfl | rfl <;>
      simp [calculate_tci_scenarios, hc, List.lookup]

/-- Witness for the amended C3 at concrete inputs. -/
theorem claim_C3_witness :
    ([(0 : ℝ)].length = [(1 : ℝ)].length) ∧
    ((calculate_tci_scenarios Real.exp [(1 : ℝ)] [0]).map Prod.fst
        = ["Aggressive", "Conservative", "Late_Start"] ∧
      ∀ sc ∈ ["Aggressive", "Conservative", "Late_Start"],
        (calculate_tci_scenarios Real.exp [(1 : ℝ)] [0]).lookup sc
          = some [("cas_series",
                PyVal.arr (casCore WEIGHTS [0]
                  (get_migration_coverage Real.exp sc [(1 : ℝ)]))),
              ("tci",
                PyVal.num ((casCore WEIGHTS [0]
                    (get_migration_coverage Real.exp sc [(1 : ℝ)])).sum
                  / ((casCore WEIGHTS [0]
                      (get_migration_coverage Real.exp sc [(1 : ℝ)])).length : ℝ)))]) :=
  ⟨rfl, claim_C3_amended [1] [0] rfl⟩

/-- Claim C2 as stated: the reduced entry point honors every recognized
configuration field that is set — including `alpha`, `a0_log` and
`weights` — and defaults the rest, i.e. it coincides with the
spec-described fully-overridable entry point on every input. -/
def claimC2 : Prop :=
  ∀ (cfg : Config ℝ) (n : Option ℕ) (z : ℕ → ℝ) (w : ℕ → ℕ → ℝ),
    run_simulation Real.exp cfg n z w = run_simulation_spec Real.exp cfg n z w

/-- Concrete configuration for the C2 counterexample: one iteration,
one year, mean growth 14 (an honored override, making the capability
hit `cost_kyber + 1`), and a logistic-sensitivity override `alpha = 0`
(which the source ignores). -/
def configC2 : Config ℝ :=
  { n_simulations := some 1, years := some 1, mu_g := some 14, alpha := some 0 }

/-- Claim C2 is false as stated: `run_simulation` ignores the `alpha`
override (the risk transform reads the module constant `ALPHA = 2`
instead), so with `alpha = 0` supplied the returned TCI differs from
the spec-described result. -/
theorem claim_C2_counterexample : ¬ claimC2 := by
  intro h
  have hne := congrArg SimResult.tci (h configC2 none (fun _ => 0) (fun _ _ => 0))
  have hcode : (run_simulation Real.exp configC2 none (fun _ => 0) (fun _ _ => 0)).tci
      = 0.4 * max 0 (1 - 1 / (1 + Real.exp (-2)))
        + 0.25 * 0.85 + 0.2 * 1 + 0.15 * 0.75 := by
    simp [run_simulation, runSimCore, configC2, timeAxis, capabilityWith, bcastAdd,
      rqr1, casWith, casCore, A0_LOG, MU_G, SIGMA_G, SIGMA_EPSILON, ALPHA,
      COST_KYBER_512, WEIGHTS, List.range_succ]
    norm_num
  have hspec : (run_simulation_spec Real.exp configC2 none (fun _ => 0) (fun _ _ => 0)).tci
      = 0.4 * max 0 (1 - 1 / (1 + Real.exp 0))
        + 0.25 * 0.85 + 0.2 * 1 + 0.15 * 0.75 := by
    simp [run_simulation_spec, runSimCore, configC2, timeAxis, capabilityWith, bcastAdd,
      rqr1, casWith, casCore, A0_LOG, MU_G, SIGMA_G, SIGMA_EPSILON, ALPHA,
      COST_KYBER_512, WEIGHTS, List.range_succ]
    norm_num
  rw [hcode, hspec, Real.exp_zero] at hne
  have hq1 : Real.exp (-(2 : ℝ)) < 1 := Real.exp_lt_one_iff.mpr (by norm_num)
  have hq0 : (0 : ℝ) < Real.exp (-2) := Real.exp_pos _
  have hr1 : 1 / (1 + Real.exp (-(2 : ℝ))) < 1 := by
    rw [div_lt_one (by positivity)]
    linarith
  have hr2 : (1 : ℝ) / 2 < 1 / (1 + Real.exp (-2)) := by
    rw [div_lt_div_iff₀ (by norm_num) (by positivity)]
    linarith
  rw [max_eq_right (by linarith)] at hne
  have hmax : (0 : ℝ) ⊔ (1 - 1 / (1 + 1)) = 1 / 2 := by
    rw [max_eq_right (by norm_num)]
    norm_num
  rw [hmax] at hne
  linarith

/-- Claim C2 (amended: `run_simulation` honors the overrides
`n_simulations`, `years`, `mu_g`, `sigma_g`, `sigma_epsilon`,
`cost_kyber_512` and the iteration-count argument, with unset fields
taking the documented defaults; the `alpha`, `a0_log` and `weights`
fields are ignored — the module defaults are always used for them):
the entry point coincides with the spec-described one exactly on
configurations whose `alpha`, `a0_log` and `weights` are unset. -/
theorem claim_C2_amended (E : K → K) (cfg : Config K) (n : Option ℕ)
    (z : ℕ → K) (w : ℕ → ℕ → K) :
    run_simulation E cfg n z w
      = run_simulation_spec E
          { cfg with a0_log := none, alpha := none, weights := none } n z w := rfl

end PQC
